import Mathlib

/-!
Verification of the media upload path of the file-storage service
(`handler_upload_video.go`, `handler_upload_thumbnail.go`, and the
`dbVideoToSignedVideo` / `main` segment).

Shallow embedding conventions:
* Go strings are modelled as Lean `String` / `List Char` (the code only
  manipulates ASCII data at the byte level, where bytes and characters agree).
* Machine bytes are `Nat` with explicit `% 256` where byte semantics matter.
* Every effectful step of a handler (JWT validation, database lookups,
  subprocess runs, S3 calls, ...) is an oracle field of a request record;
  the handler is a pure function of the oracle that replays the source's
  control flow, its `defer` stack and its file-system writes.
* Fallible Go calls returning `(T, error)` become `Except String T` or
  `T × Option String`, matching the source's multi-value returns.
-/

namespace TubelyVerify

set_option maxRecDepth 100000

deriving instance DecidableEq for Except

/-! ## Go standard library fragments used by the handlers -/

/-- Model of Go `mime` package `isTSpecial`: membership in the tspecials set. -/
def isTSpecial (c : Char) : Bool :=
  "()<>@,;:\\\"/[]?=".data.contains c

/-- Model of Go `mime` package `isTokenChar`:
printable US-ASCII other than space and tspecials. -/
def isTokenChar (c : Char) : Bool :=
  c.toNat > 0x20 && c.toNat < 0x7f && !(isTSpecial c)

/-- Model of Go `unicode.IsSpace` on the Latin-1 range (the only characters the
handlers' inputs can meaningfully contain): space, tab, newline, vertical tab,
form feed, carriage return, NEL, NBSP. -/
def goIsSpace (c : Char) : Bool :=
  c = ' ' || c = '\t' || c = '\n' || c = '\x0b' || c = '\x0c' || c = '\r' ||
  c = '\x85' || c = '\xa0'

/-- Model of Go `strings.ToLower` on one character, ASCII fragment
(the media types the handlers compare against are ASCII literals). -/
def goToLowerChar (c : Char) : Char :=
  if 'A' ≤ c ∧ c ≤ 'Z' then Char.ofNat (c.toNat + 32) else c

/-- Model of Go `strings.ToLower` (ASCII fragment). -/
def goToLower (l : List Char) : List Char := l.map goToLowerChar

/-- Model of Go `strings.TrimLeftFunc (· , unicode.IsSpace)`. -/
def goTrimLeft (l : List Char) : List Char := l.dropWhile goIsSpace

/-- Model of Go `strings.TrimSpace`: drop spaces from both ends. -/
def goTrimSpace (l : List Char) : List Char :=
  ((l.dropWhile goIsSpace).reverse.dropWhile goIsSpace).reverse

/-- Model of Go `mime.consumeToken`: the longest token-character run and the
rest (`strings.IndexFunc` based source splits the string at the first
non-token character). -/
def consumeToken (v : List Char) : List Char × List Char :=
  (v.takeWhile isTokenChar, v.dropWhile isTokenChar)

/-- Model of Go `mime.checkMediaTypeDisposition`: a token, optionally a slash
and a second token, nothing after. Returns `some errorMessage` on failure. -/
def checkMediaTypeDisposition (s : List Char) : Option String :=
  match consumeToken s with
  | (typ, rest) =>
    if typ = [] then some "mime: no media type"
    else
      match rest with
      | [] => none
      | '/' :: rest1 =>
        match consumeToken rest1 with
        | (subtype, rest2) =>
          if subtype = [] then some "mime: expected token after slash"
          else if rest2 = [] then none
          else some "mime: unexpected content after media subtype"
      | _ :: _ => some "mime: expected slash after first token"

/-- Model of the quoted-string loop of Go `mime.consumeValue`: `orig` is the
whole input (returned unchanged on a parse failure), `acc` the reversed
characters written so far, `rem` the characters after the opening quote. -/
def consumeQuoted (orig : List Char) : List Char → List Char → List Char × List Char
  | _acc, [] => ([], orig)
  | acc, c :: rest =>
    if c = '"' then (acc.reverse, rest)
    else if c = '\\' then
      match rest with
      | c2 :: rest2 =>
        if isTSpecial c2 then consumeQuoted orig (c2 :: acc) rest2
        else consumeQuoted orig (c :: acc) (c2 :: rest2)
      | [] => consumeQuoted orig (c :: acc) []
    else if c = '\r' ∨ c = '\n' then ([], orig)
    else consumeQuoted orig (c :: acc) rest
termination_by _ rem => rem.length
decreasing_by all_goals simp <;> omega

/-- Model of Go `mime.consumeValue`: a bare token, or a quoted string. -/
def consumeValue (v : List Char) : List Char × List Char :=
  match v with
  | [] => ([], [])
  | c :: rest => if c = '"' then consumeQuoted v [] rest else consumeToken v

/-- Model of Go `mime.consumeMediaParam`: `;`, optional spaces, a token key,
`=`, a value.  On failure returns empty key and value with the input as rest. -/
def consumeMediaParam (v : List Char) : List Char × List Char × List Char :=
  match goTrimLeft v with
  | ';' :: t =>
    match consumeToken (goTrimLeft t) with
    | (param0, r3) =>
      if goToLower param0 = [] then ([], [], v)
      else
        match goTrimLeft r3 with
        | '=' :: t4 =>
          match consumeValue (goTrimLeft t4) with
          | (value, rest2) =>
            if value = [] ∧ rest2 = goTrimLeft t4 then ([], [], v)
            else (goToLower param0, value, rest2)
        | _ => ([], [], v)
  | _ => ([], [], v)

/-- Model of the parameter loop of Go `mime.ParseMediaType`, fuelled so that
the recursion is structural (each iteration strictly consumes input, so the
fuel `v.length + 1` used by `paramsLoop` never runs out; see
`paramsLoopF_fuel_irrelevant`).  Only the error outcome matters to the
callers in this repository, so the parameter maps (`params`, and the
per-base-name `continuation` maps for keys containing `*`) are threaded solely
for Go's duplicate-parameter check. -/
def paramsLoopF : Nat → List Char → List (List Char × List Char) →
    List (List Char × List (List Char × List Char)) → Option String
  | 0, _, _, _ => some "mime: invalid media parameter"
  | fuel + 1, v, params, continuation =>
    match goTrimLeft v with
    | [] => none
    | c :: t =>
      match consumeMediaParam (c :: t) with
      | (key, value, rest) =>
        if key = [] then
          if goTrimSpace rest = [';'] then none
          else some "mime: invalid media parameter"
        else
          if key.contains '*' then
            let baseName := key.takeWhile (fun x => ¬(x = '*'))
            let pmap := (List.lookup baseName continuation).getD []
            match List.lookup key pmap with
            | some v0 =>
              if v0 = value then
                paramsLoopF fuel rest params ((baseName, (key, value) :: pmap) :: continuation)
              else some "mime: duplicate parameter name"
            | none =>
              paramsLoopF fuel rest params ((baseName, (key, value) :: pmap) :: continuation)
          else
            match List.lookup key params with
            | some v0 =>
              if v0 = value then paramsLoopF fuel rest ((key, value) :: params) continuation
              else some "mime: duplicate parameter name"
            | none => paramsLoopF fuel rest ((key, value) :: params) continuation

/-- The parameter loop of Go `mime.ParseMediaType` with sufficient fuel. -/
def paramsLoop (v : List Char) : Option String := paramsLoopF (v.length + 1) v [] []

/-- Model of Go `mime.ParseMediaType`, restricted to the two outputs the
repository reads: the parsed media type and the error.  The media type is the
lowercased, space-trimmed text before the first `;`; the parameter section is
scanned only for Go's two parameter errors (invalid parameter, duplicate
parameter name). -/
def parseMediaType (s : String) : Except String String :=
  let v := s.data
  let base := v.takeWhile (fun c => ¬(c = ';'))
  let mediatype := goToLower (goTrimSpace base)
  match checkMediaTypeDisposition mediatype with
  | some e => .error e
  | none =>
    match paramsLoop (v.drop base.length) with
    | some e => .error e
    | none => .ok (String.mk mediatype)

/-- Model of Go `strings.Split` with a one-character separator (the only form
the repository uses: `"/"` and `","`). -/
def splitOnChar (sep : Char) : List Char → List (List Char)
  | [] => [[]]
  | c :: rest =>
    let r := splitOnChar sep rest
    if c = sep then [] :: r
    else
      match r with
      | h :: t => (c :: h) :: t
      | [] => [[c]]

/-- Model of Go `strings.Split s (String.singleton sep)`. -/
def goSplit (s : String) (sep : Char) : List String :=
  (splitOnChar sep s.data).map String.mk

/-- Model of Go `strings.Contains s substr`. -/
def goContains (s substr : String) : Bool :=
  decide (substr.data <:+: s.data)

/-- Model of Go `strings.TrimSuffix`. -/
def goTrimSuffix (s suffix : String) : String :=
  if suffix.data.isSuffixOf s.data then
    String.mk (s.data.take (s.data.length - suffix.data.length))
  else s

/-- Model of Go `filepath.Join` for two already-clean components
(the repository joins its assets root with a generated file name). -/
def goFilepathJoin (a b : String) : String := a ++ "/" ++ b

/-! ## Media classification (`handler_upload_thumbnail.go`,
`handler_upload_video.go`, and the updated thumbnail handler) -/

/-- Embeds `getImageExtension` of `src/handler_upload_thumbnail.go` (lines
15-25): split the raw declared type on `/`; exactly two pieces required
(`len(items) < 2 || len(items) > 2`); the first must be `image`. -/
def getImageExtension (s : String) : Except String String :=
  match goSplit s '/' with
  | [kind, extension] =>
    if kind = "image" then .ok extension else .error "not an image"
  | _ => .error "not a valid image mime-type"

/-- Embeds `getImageExtension` of the updated thumbnail handler
(`src/unnamed/part_000` lines 17-31): like the raw variant but the declared
type first goes through `mime.ParseMediaType`. -/
def getImageExtensionParsed (s : String) : Except String String :=
  match parseMediaType s with
  | .error e => .error e
  | .ok mediaType =>
    match goSplit mediaType '/' with
    | [kind, extension] =>
      if kind = "image" then .ok extension else .error "not an image"
    | _ => .error "not a valid image mime-type"

/-- Embeds `getVideoExtension` of `src/handler_upload_video.go` (lines
96-110): `mime.ParseMediaType`, then split on `/`, exactly two pieces, first
piece must be `video`. -/
def getVideoExtension (s : String) : Except String String :=
  match parseMediaType s with
  | .error e => .error e
  | .ok mediaType =>
    match goSplit mediaType '/' with
    | [kind, extension] =>
      if kind = "video" then .ok extension else .error "not an video"
    | _ => .error "not a valid video mime-type"

/-- One stream of an `ffprobe` report (`FFProbeVideoInfo.Streams` in
`src/handler_upload_video.go` lines 25-57).  Only the field the code reads is
modelled; `display_aspect_ratio` is `""` when the JSON key is absent (the Go
zero value under `omitempty`). -/
structure FFStream where
  displayAspectRatio : String
deriving DecidableEq

/-- An `ffprobe` report (`FFProbeVideoInfo`, `src/handler_upload_video.go`
lines 22-58).  The `programs` / `stream_groups` fields are never read. -/
structure FFProbeVideoInfo where
  streams : List FFStream
deriving DecidableEq

/-- Embeds `getVideoAspectRatio` of `src/handler_upload_video.go` (lines
72-94).  The `ffprobe` subprocess run and the JSON unmarshal are the oracle
argument `probe`: an error there is returned as is; zero streams is the
`no streams found` error; otherwise the first stream's
`display_aspect_ratio` string is returned. -/
def getVideoAspectRatio (probe : Except String FFProbeVideoInfo) :
    Except String String :=
  match probe with
  | .error e => .error e
  | .ok info =>
    match info.streams with
    | [] => .error "no streams found"
    | s :: _ => .ok s.displayAspectRatio

/-- Embeds `mappingOfAspectRatios` of `src/handler_upload_video.go` (lines
212-216) as a lookup: `16:9` to `landscape`, `9:16` to `portrait`, `other` to
`other`, anything else absent. -/
def mappingOfAspectRatios (s : String) : Option String :=
  if s = "16:9" then some "landscape"
  else if s = "9:16" then some "portrait"
  else if s = "other" then some "other"
  else none

/-- Embeds the map lookup with `!ok` default of `src/handler_upload_video.go`
lines 218-222: an aspect-ratio string missing from the map becomes `other`. -/
def mapAspectRatio (s : String) : String :=
  (mappingOfAspectRatios s).getD "other"

/-! ## Key naming (`src/handler_upload_video.go` lines 229-242,
`src/handler_upload_thumbnail.go` lines 93-94) -/

/-- The `hex` package digit table. -/
def hexTable : List Char := "0123456789abcdef".data

/-- Model of `hex` encoding of one byte: `hextable[b>>4]`, `hextable[b&0x0f]`
(bytes are `Nat` reduced mod 256). -/
def hexByte (b : Nat) : List Char :=
  [hexTable.getD (b % 256 / 16) '0', hexTable.getD (b % 16) '0']

/-- Model of Go `hex.EncodeToString`. -/
def hexEncodeToString (bs : List Nat) : String :=
  String.mk (bs.map hexByte).flatten

/-- Embeds the video object key composition
`fmt.Sprintf("%s/%s.%s", namedAspectRatio, hexString, extension)`
(`src/handler_upload_video.go` line 242). -/
def videoKey (namedAspectRatio : String) (randomBytes : List Nat)
    (extension : String) : String :=
  namedAspectRatio ++ "/" ++ hexEncodeToString randomBytes ++ "." ++ extension

/-- Embeds the thumbnail asset name
`fmt.Sprintf("%s.%s", video.ID.String(), extension)`
(`src/handler_upload_thumbnail.go` line 93). -/
def thumbnailAssetName (videoID extension : String) : String :=
  videoID ++ "." ++ extension

/-- Embeds the output path computation of `processVideoForFastStart`
(`src/handler_upload_video.go` line 63):
`strings.TrimSuffix(filePath, ".mp4") + "-faststart.mp4"`. -/
def fastStartOutputPath (filePath : String) : String :=
  goTrimSuffix filePath ".mp4" ++ "-faststart.mp4"

/-! ## Data model -/

/-- Modelled from the spec: `database.Video` lives in the repository's
`internal/database` package, which is not under `src/`.  Fields follow spec
section 3 (VideoRecord: identity, owning user, stored video reference, stored
thumbnail reference, last-updated timestamp, title, description) and the field
names the handlers use (`ID`, `UserID`, `VideoURL`, `ThumbnailURL`,
`UpdatedAt`).  The Go zero value `database.Video{}` is `zeroVideo`. -/
structure Video where
  id : String
  createdAt : Nat
  updatedAt : Nat
  thumbnailURL : Option String
  videoURL : Option String
  title : String
  description : String
  userID : String
deriving DecidableEq

/-- The Go zero value `database.Video{}`: every field at its zero value. -/
def zeroVideo : Video :=
  { id := "", createdAt := 0, updatedAt := 0, thumbnailURL := none,
    videoURL := none, title := "", description := "", userID := "" }

/-- Embeds `apiConfig` (`src/unnamed/part_000` lines 154-165).  The `db` and
`s3Client` handles are effects, not data, and are modelled by the oracle
fields of the requests and by the `presign` argument of
`dbVideoToSignedVideo`. -/
structure APIConfig where
  jwtSecret : String
  platform : String
  filepathRoot : String
  assetsRoot : String
  s3Bucket : String
  s3Region : String
  s3CfDistribution : String
  port : String
deriving DecidableEq

/-! ## Signed-URL read path (`src/unnamed/part_000` lines 167-201) -/

/-- Embeds `dbVideoToSignedVideo`.  Go's `(database.Video, error)` return is
`Video × Option String`.  `presign` stands for `generatePresignedURL`
(defined outside `src/`): it receives the bucket, the key and the expiry in
seconds exactly as the source passes them (`cfg.s3Bucket`, `key`,
`15*60*time.Second`). -/
def dbVideoToSignedVideo (cfg : APIConfig)
    (presign : String → String → Nat → Except String String)
    (video : Video) : Video × Option String :=
  match video.videoURL with
  | none => (zeroVideo, none)
  | some url =>
    if url = "" then (zeroVideo, none)
    else
      match goSplit url ',' with
      | bucket :: key :: _ =>
        if goContains bucket cfg.s3Bucket then
          match presign cfg.s3Bucket key (15 * 60) with
          | .ok signedURL => ({ video with videoURL := some signedURL }, none)
          | .error e => (zeroVideo, some e)
        else
          (zeroVideo, some ("video URL bucket \"" ++ bucket ++
            "\" does not match configured S3 bucket \"" ++ cfg.s3Bucket ++ "\""))
      | _ =>
        (zeroVideo, some ("video URL \"" ++ url ++
          "\" is not in expected bucket,key format"))

/-! ## Handler machinery -/

/-- A handler response: `respondWithError` carries a status and a message,
`respondWithJSON` the status 200 payload. -/
inductive RespBody where
  | err (msg : String)
  | video (v : Video)
deriving DecidableEq

/-- Status code and body of the HTTP response a handler writes. -/
structure Response where
  status : Nat
  body : RespBody
deriving DecidableEq

/-- One deferred statement: `Close()` (no effect on file existence) or
`os.Remove(path)`. -/
inductive DeferAction where
  | close
  | remove (path : String)
deriving DecidableEq

/-- Runs a `defer` stack over the set of existing files.  The stack is kept
with the most recently registered action first, so a left fold replays Go's
last-in-first-out order.  `os.Remove` of an absent path errors in Go but the
source ignores that; here it is simply a no-op `erase`. -/
def runDefers (defers : List DeferAction) (files : List String) : List String :=
  defers.foldl
    (fun fs a =>
      match a with
      | .close => fs
      | .remove p => fs.erase p)
    files

/-- What a handler run leaves behind: the response, the request-created files
still existing after the `defer` stack ran, the attempted S3 puts
(bucket, key, content type), the attempted record updates, and every local
disk write performed. -/
structure HandlerResult where
  response : Response
  files : List String
  s3Puts : List (String × String × String)
  dbUpdates : List Video
  diskWrites : List String
deriving DecidableEq

/-- A handler result with a response only: no file, no S3 put, no record
update, no disk write. -/
def noEffects (resp : Response) : HandlerResult :=
  { response := resp, files := [], s3Puts := [], dbUpdates := [], diskWrites := [] }

/-- Model of Go `http.MaxBytesReader` read to the end: reading the wrapped
body fails once it exceeds the cap. -/
def maxBytesReader (bodySize cap : Nat) : Except String Nat :=
  if cap < bodySize then .error "http: request body too large" else .ok bodySize

/-- The video handler cap `const maxMemory = 10 << 30`
(`src/handler_upload_video.go` line 151). -/
def maxMemoryVideo : Nat := 10 <<< 30

/-- The thumbnail handler memory threshold `const maxMemory = 10 << 20`
(`src/handler_upload_thumbnail.go` line 67). -/
def maxMemoryThumb : Nat := 10 <<< 20

/-- The oracle for one run of `handlerUploadVideo`: the request data and the
outcome of every effectful step, in source order.  `none` / `false` means the
corresponding Go call returned an error. -/
structure VideoReq where
  videoID : Option String
  bearerToken : Option String
  jwtUserID : Option String
  dbVideo : Option Video
  dbUserID : Option String
  bodySize : Nat
  contentType : String
  formFileOk : Bool
  tempPath : Option String
  copyOk : Bool
  ffmpegOk : Bool
  openFastOk : Bool
  probe : Except String FFProbeVideoInfo
  seekOk : Bool
  randBytes : Option (List Nat)
  putOk : Bool
  updateOk : Bool
  now : Nat

/-- Embeds `handlerUploadVideo` (`src/handler_upload_video.go` lines
112-272), replaying its control flow, `defer` stack and file-system effects.
Failure messages and status codes are the source's `respondWithError`
arguments. -/
def handlerUploadVideo (cfg : APIConfig) (r : VideoReq) : HandlerResult :=
  match r.videoID with
  | none => noEffects ⟨400, .err "Invalid ID"⟩
  | some _videoID =>
  match r.bearerToken with
  | none => noEffects ⟨401, .err "Couldn't find JWT"⟩
  | some _token =>
  match r.jwtUserID with
  | none => noEffects ⟨401, .err "Couldn't validate JWT"⟩
  | some _userID =>
  match r.dbVideo with
  | none => noEffects ⟨404, .err "Video not found"⟩
  | some video =>
  match r.dbUserID with
  | none => noEffects ⟨401, .err "User not found"⟩
  | some userID =>
  if video.userID ≠ userID then noEffects ⟨401, .err "Unauthorized"⟩
  else
  -- `http.MaxBytesReader(w, r.Body, maxMemory)`: the returned capped reader
  -- is discarded by the source, so nothing below reads through it.
  let _cappedBody := maxBytesReader r.bodySize maxMemoryVideo
  if ¬ r.formFileOk then noEffects ⟨500, .err "Error processing request"⟩
  else
  -- `defer file.Close()`
  let defers1 : List DeferAction := [.close]
  match getVideoExtension r.contentType with
  | .error _ =>
    { noEffects ⟨406, .err "Not acceptable"⟩ with files := runDefers defers1 [] }
  | .ok extension =>
  let _videoFilename := video.id ++ "." ++ extension
  match r.tempPath with
  | none => { noEffects ⟨500, .err "Server error"⟩ with files := runDefers defers1 [] }
  | some tmp =>
  -- `os.CreateTemp` created `tmp`; `defer videoFile.Close()`,
  -- `defer os.Remove(videoFile.Name())`
  let files2 := [tmp]
  let writes2 := [tmp]
  let defers2 : List DeferAction := .remove tmp :: .close :: defers1
  if ¬ r.copyOk then
    { noEffects ⟨500, .err "Server error"⟩ with
      files := runDefers defers2 files2, diskWrites := writes2 }
  else
  let writes3 := tmp :: writes2
  -- `processVideoForFastStart(videoFile.Name())`
  let fastPath := fastStartOutputPath tmp
  if ¬ r.ffmpegOk then
    { noEffects ⟨500, .err "Error processing video for fast start"⟩ with
      files := runDefers defers2 files2, diskWrites := writes3 }
  else
  let files4 := fastPath :: files2
  let writes4 := fastPath :: writes3
  if ¬ r.openFastOk then
    -- `os.Open(fastStartVideoFilePath)` failed: the removal of `fastPath` is
    -- deferred only after a successful open, so it is not on the stack here.
    { noEffects ⟨500, .err "Error opening video file with fast start version"⟩ with
      files := runDefers defers2 files4, diskWrites := writes4 }
  else
  -- `defer fastStartedVideoFile.Close()`, `defer os.Remove(fastStartVideoFilePath)`
  let defers5 : List DeferAction := .remove fastPath :: .close :: defers2
  match getVideoAspectRatio r.probe with
  | .error _ =>
    { noEffects ⟨500, .err "Error determining aspect ratio"⟩ with
      files := runDefers defers5 files4, diskWrites := writes4 }
  | .ok aspectRatio =>
  let namedAspectRatio := mapAspectRatio aspectRatio
  if ¬ r.seekOk then
    { noEffects ⟨500, .err "Server error"⟩ with
      files := runDefers defers5 files4, diskWrites := writes4 }
  else
  match r.randBytes with
  | none =>
    { noEffects ⟨500, .err "Error generating random bytes"⟩ with
      files := runDefers defers5 files4, diskWrites := writes4 }
  | some randomBytes =>
  let keyFilename := videoKey namedAspectRatio randomBytes extension
  -- `cfg.s3Client.PutObject(...)`
  let puts := [(cfg.s3Bucket, keyFilename, r.contentType)]
  if ¬ r.putOk then
    { noEffects ⟨500, .err "Error uploading to S3"⟩ with
      files := runDefers defers5 files4, s3Puts := puts, diskWrites := writes4 }
  else
  let videoUrl := "https://" ++ cfg.s3Bucket ++ ".s3." ++ cfg.s3Region ++
    ".amazonaws.com/" ++ keyFilename
  let video1 := { video with updatedAt := r.now, videoURL := some videoUrl }
  let updates := [video1]
  if ¬ r.updateOk then
    { noEffects ⟨500, .err "Error updating data"⟩ with
      files := runDefers defers5 files4, s3Puts := puts, dbUpdates := updates,
      diskWrites := writes4 }
  else
  { response := ⟨200, .video video1⟩, files := runDefers defers5 files4,
    s3Puts := puts, dbUpdates := updates, diskWrites := writes4 }

/-- The oracle for one run of `handlerUploadThumbnail`: request data and the
outcome of every effectful step, in source order. -/
structure ThumbReq where
  videoID : Option String
  bearerToken : Option String
  jwtUserID : Option String
  dbVideo : Option Video
  dbUserID : Option String
  bodySize : Nat
  parseFormOk : Bool
  formFileOk : Bool
  contentType : String
  readAllOk : Bool
  createOk : Bool
  writeOk : Bool
  updateOk : Bool
  host : String
  tls : Bool
  now : Nat

/-- Embeds `handlerUploadThumbnail` (`src/handler_upload_thumbnail.go` lines
27-127).  `r.ParseMultipartForm(maxMemory)` is called with its error
discarded, exactly as in the source (`maxMemory` there is the in-memory
threshold of the multipart parser, not a request size cap). -/
def handlerUploadThumbnail (cfg : APIConfig) (t : ThumbReq) : HandlerResult :=
  match t.videoID with
  | none => noEffects ⟨400, .err "Invalid ID"⟩
  | some _videoID =>
  match t.bearerToken with
  | none => noEffects ⟨401, .err "Couldn't find JWT"⟩
  | some _token =>
  match t.jwtUserID with
  | none => noEffects ⟨401, .err "Couldn't validate JWT"⟩
  | some _userID =>
  match t.dbVideo with
  | none => noEffects ⟨404, .err "Video not found"⟩
  | some video =>
  match t.dbUserID with
  | none => noEffects ⟨401, .err "User not found"⟩
  | some userID =>
  if video.userID ≠ userID then noEffects ⟨401, .err "Unauthorized"⟩
  else
  -- `r.ParseMultipartForm(maxMemory)`: return value discarded by the source.
  let _parseForm := t.parseFormOk
  if ¬ t.formFileOk then noEffects ⟨500, .err "Error processing request"⟩
  else
  -- `defer file.Close()`
  let defers1 : List DeferAction := [.close]
  match getImageExtension t.contentType with
  | .error _ =>
    { noEffects ⟨406, .err "Not acceptable"⟩ with files := runDefers defers1 [] }
  | .ok extension =>
  if ¬ t.readAllOk then
    { noEffects ⟨500, .err "Error reading data"⟩ with files := runDefers defers1 [] }
  else
  let savePath := goFilepathJoin cfg.assetsRoot (thumbnailAssetName video.id extension)
  if ¬ t.createOk then
    { noEffects ⟨500, .err "Server error"⟩ with files := runDefers defers1 [] }
  else
  -- `os.Create(savePath)` created the asset file; `defer thumbnailFile.Close()`.
  -- No removal is ever deferred for it: the thumbnail is the persisted asset.
  let files2 := [savePath]
  let writes2 := [savePath]
  let defers2 : List DeferAction := .close :: defers1
  if ¬ t.writeOk then
    { noEffects ⟨500, .err "Server error"⟩ with
      files := runDefers defers2 files2, diskWrites := writes2 }
  else
  let writes3 := savePath :: writes2
  let scheme := if t.tls then "https" else "http"
  let thumbnailUrl := scheme ++ "://" ++ t.host ++ "/assets/" ++ video.id ++
    "." ++ extension
  let video1 := { video with updatedAt := t.now, thumbnailURL := some thumbnailUrl }
  let updates := [video1]
  if ¬ t.updateOk then
    { noEffects ⟨500, .err "Error updating data"⟩ with
      files := runDefers defers2 files2, dbUpdates := updates, diskWrites := writes3 }
  else
  { response := ⟨200, .video video1⟩, files := runDefers defers2 files2,
    s3Puts := [], dbUpdates := updates, diskWrites := writes3 }

/-! ## Concrete fixtures used by the closed theorems -/

/-- A concrete service configuration. -/
def cfgC : APIConfig :=
  { jwtSecret := "secret", platform := "dev", filepathRoot := "app",
    assetsRoot := "assets", s3Bucket := "mybucket", s3Region := "us-east-1",
    s3CfDistribution := "cf", port := "8091" }

/-- A concrete owned video record before any upload. -/
def vidC : Video :=
  { id := "11111111-1111-1111-1111-111111111111", createdAt := 1, updatedAt := 2,
    thumbnailURL := some "http://localhost/assets/t.png", videoURL := none,
    title := "t", description := "d", userID := "user-1" }

/-- A video upload request by the owner of `vidC`, declared `video/mp4`,
probed 16:9, where every effectful step succeeds. -/
def reqC : VideoReq :=
  { videoID := some "11111111-1111-1111-1111-111111111111",
    bearerToken := some "tok", jwtUserID := some "user-1",
    dbVideo := some vidC, dbUserID := some "user-1", bodySize := 1000,
    contentType := "video/mp4", formFileOk := true,
    tempPath := some "/tmp/vid.mp4rand", copyOk := true, ffmpegOk := true,
    openFastOk := true, probe := .ok ⟨[⟨"16:9"⟩]⟩, seekOk := true,
    randBytes := some (List.replicate 32 171), putOk := true,
    updateOk := true, now := 99 }

/-- A thumbnail upload request by the owner of `vidC`, declared `image/png`,
where every effectful step succeeds. -/
def thumbC : ThumbReq :=
  { videoID := some "11111111-1111-1111-1111-111111111111",
    bearerToken := some "tok", jwtUserID := some "user-1",
    dbVideo := some vidC, dbUserID := some "user-1", bodySize := 1000,
    parseFormOk := true, formFileOk := true, contentType := "image/png",
    readAllOk := true, createOk := true, writeOk := true, updateOk := true,
    host := "localhost:8091", tls := false, now := 99 }

/-- A concrete `generatePresignedURL` stand-in that records which bucket and
key were signed. -/
def presignDemo : String → String → Nat → Except String String :=
  fun bucket key _expiry => .ok ("signed:" ++ bucket ++ ":" ++ key)

/-- The value `handlerUploadVideo` persists in the record's video reference
field for `cfgC` and `reqC` (`0xab` thirty-two times hex-encodes to 64 `ab`
pairs). -/
def storedC : String :=
  "https://mybucket.s3.us-east-1.amazonaws.com/landscape/abababababababababababababababababababababababababababababababab.mp4"

/-! ## Supporting lemmas -/

theorem length_dropWhile_le (p : Char → Bool) :
    ∀ l : List Char, (l.dropWhile p).length ≤ l.length := by
  intro l
  induction l with
  | nil => simp
  | cons a l ih =>
    by_cases h : p a
    · simp only [List.dropWhile_cons, h, if_true]
      simp
      omega
    · simp [List.dropWhile_cons, h]

theorem goTrimLeft_length_le (l : List Char) : (goTrimLeft l).length ≤ l.length :=
  length_dropWhile_le goIsSpace l

theorem consumeToken_snd_length_le (l : List Char) :
    ((consumeToken l).2).length ≤ l.length :=
  length_dropWhile_le isTokenChar l

theorem consumeQuoted_snd_length_le (orig : List Char) (acc rem : List Char) :
    ((consumeQuoted orig acc rem).2).length ≤ max orig.length rem.length := by
  induction acc, rem using consumeQuoted.induct orig
  all_goals rw [consumeQuoted.eq_def]
  all_goals simp_all
  all_goals omega

theorem consumeValue_snd_length_le (v : List Char) :
    ((consumeValue v).2).length ≤ v.length := by
  cases v with
  | nil => simp [consumeValue]
  | cons c rest =>
    by_cases h : c = '"'
    · subst h
      rw [consumeValue]
      simp only [if_true]
      have := consumeQuoted_snd_length_le ('"' :: rest) [] rest
      simp at this ⊢
      omega
    · rw [consumeValue]
      simp only [h, if_false]
      exact consumeToken_snd_length_le _

theorem consumeMediaParam_rest_lt :
    ∀ (v key value rest : List Char), consumeMediaParam v = (key, value, rest) →
      key ≠ [] → rest.length < v.length := by
  intro v key value rest h hk
  unfold consumeMediaParam at h
  split at h
  case h_1 t heq =>
    split at h
    case _ param0 r3 heq2 =>
      split at h
      · cases h
        exact absurd rfl hk
      · split at h
        case h_1 t4 heq3 =>
          split at h
          case _ value0 rest2 heq4 =>
            split at h
            · cases h
              exact absurd rfl hk
            · have hr : rest2 = rest := congrArg (fun x => x.2.2) h
              subst hr
              have b1 : rest2.length ≤ (goTrimLeft t4).length := by
                have := consumeValue_snd_length_le (goTrimLeft t4)
                rw [heq4] at this
                exact this
              have b2 : (goTrimLeft t4).length ≤ t4.length := goTrimLeft_length_le t4
              have b3 : t4.length < (goTrimLeft r3).length := by
                rw [heq3]; simp
              have b4 : (goTrimLeft r3).length ≤ r3.length := goTrimLeft_length_le r3
              have b5 : r3.length ≤ (goTrimLeft t).length := by
                have := consumeToken_snd_length_le (goTrimLeft t)
                rw [heq2] at this
                exact this
              have b6 : (goTrimLeft t).length ≤ t.length := goTrimLeft_length_le t
              have b7 : t.length < (goTrimLeft v).length := by
                rw [heq]; simp
              have b8 : (goTrimLeft v).length ≤ v.length := goTrimLeft_length_le v
              omega
        case h_2 heq3 =>
          cases h
          exact absurd rfl hk
  case h_2 heq =>
    cases h
    exact absurd rfl hk

/-- The fuel of `paramsLoopF` is irrelevant as soon as it exceeds the input
length: each successful `consumeMediaParam` strictly consumes input, so the
`v.length + 1` fuel used by `paramsLoop` reproduces Go's unbounded loop. -/
theorem paramsLoopF_fuel_irrelevant :
    ∀ (f g : Nat) (v : List Char) params continuation, v.length < f → v.length < g →
      paramsLoopF f v params continuation = paramsLoopF g v params continuation := by
  intro f
  induction f with
  | zero => intro g v params continuation hf; omega
  | succ f ih =>
    intro g v params continuation hf hg
    cases g with
    | zero => omega
    | succ g =>
      rw [paramsLoopF, paramsLoopF]
      cases hm : goTrimLeft v with
      | nil => rfl
      | cons c t =>
        have hlt : t.length + 1 ≤ v.length := by
          have h1 := goTrimLeft_length_le v
          rw [hm] at h1
          simpa using h1
        rcases hc : consumeMediaParam (c :: t) with ⟨key, value, rest⟩
        dsimp only
        rw [hc]
        dsimp only
        by_cases hk : key = []
        · simp [hk]
        · have hrest : rest.length < v.length := by
            have h2 := consumeMediaParam_rest_lt (c :: t) key value rest hc hk
            simp at h2
            omega
          simp only [hk, if_false]
          by_cases hstar : key.contains '*' = true
          · simp only [hstar, if_true]
            cases List.lookup key ((List.lookup (key.takeWhile fun x => ¬(x = '*'))
                continuation).getD []) with
            | none => exact ih g rest _ _ (by omega) (by omega)
            | some v0 =>
              by_cases hv0 : v0 = value
              · simp only [hv0, if_true]
                exact ih g rest _ _ (by omega) (by omega)
              · simp [hv0]
          · simp only [Bool.not_eq_true] at hstar
            simp only [hstar, Bool.false_eq_true, if_false]
            cases List.lookup key params with
            | none => exact ih g rest _ _ (by omega) (by omega)
            | some v0 =>
              by_cases hv0 : v0 = value
              · simp only [hv0, if_true]
                exact ih g rest _ _ (by omega) (by omega)
              · simp [hv0]

theorem hexByte_length (b : Nat) : (hexByte b).length = 2 := rfl

theorem hexEncodeToString_length (bs : List Nat) :
    (hexEncodeToString bs).length = 2 * bs.length := by
  induction bs with
  | nil => rfl
  | cons b bs ih =>
    simp only [hexEncodeToString, String.length] at ih ⊢
    simp [List.flatten_cons, hexByte] at ih ⊢
    omega

theorem hexTable_getD_mem (i : Nat) : hexTable.getD i '0' ∈ hexTable := by
  rcases h : hexTable.get? i with _ | c
  · rw [List.getD_eq_getD_get?, h]
    decide
  · rw [List.getD_eq_getD_get?, h]
    exact List.get?_mem h

theorem hexEncodeToString_mem (bs : List Nat) :
    ∀ c ∈ (hexEncodeToString bs).data, c ∈ hexTable := by
  intro c hc
  simp only [hexEncodeToString] at hc
  rw [List.mem_flatten] at hc
  obtain ⟨l, hl, hcl⟩ := hc
  rw [List.mem_map] at hl
  obtain ⟨b, _, rfl⟩ := hl
  simp only [hexByte, List.mem_cons, List.mem_singleton] at hcl
  rcases hcl with rfl | rfl | h
  · exact hexTable_getD_mem _
  · exact hexTable_getD_mem _
  · exact absurd h (List.not_mem_nil c)

/-! ## Claim theorems -/

/-- Claim C7: a probe report with zero streams makes aspect-ratio
classification fail with the no-streams-found error; otherwise the first
stream's display-aspect-ratio string is classified as exactly `16:9` to
`landscape`, exactly `9:16` to `portrait`, and anything else to `other`
without erroring the upload (the handler's map lookup defaults to `other`). -/
theorem c7_aspect_classification :
    (∀ info : FFProbeVideoInfo, info.streams = [] →
      getVideoAspectRatio (.ok info) = .error "no streams found") ∧
    (∀ (info : FFProbeVideoInfo) (s : FFStream) (rest : List FFStream),
      info.streams = s :: rest →
      getVideoAspectRatio (.ok info) = .ok s.displayAspectRatio) ∧
    mapAspectRatio "16:9" = "landscape" ∧
    mapAspectRatio "9:16" = "portrait" ∧
    (∀ s : String, s ≠ "16:9" → s ≠ "9:16" → mapAspectRatio s = "other") := by
  refine ⟨?_, ?_, by decide, by decide, ?_⟩
  · intro info h
    simp [getVideoAspectRatio, h]
  · intro info s rest h
    simp [getVideoAspectRatio, h]
  · intro s h1 h2
    by_cases h3 : s = "other" <;>
      simp [mapAspectRatio, mappingOfAspectRatios, h1, h2, h3]

/-- Witness for C7 at concrete probe reports: an empty report errors, a
one-stream `4:3` report classifies to `other`. -/
theorem c7_aspect_classification_witness :
    getVideoAspectRatio (.ok ⟨[]⟩) = .error "no streams found" ∧
    getVideoAspectRatio (.ok ⟨[⟨"4:3"⟩]⟩) = .ok "4:3" ∧
    mapAspectRatio "4:3" = "other" :=
  ⟨c7_aspect_classification.1 ⟨[]⟩ rfl,
   c7_aspect_classification.2.1 ⟨[⟨"4:3"⟩]⟩ ⟨"4:3"⟩ [] rfl,
   c7_aspect_classification.2.2.2.2 "4:3" (by decide) (by decide)⟩

/-- Claim C8: the derived video object key is
`{orientation}/{hex}.{extension}` where the hex component encodes exactly 32
bytes as 64 hexadecimal characters; the thumbnail stored on local disk uses
the deterministic `{video-id}.{extension}` name instead.  (The 32 bytes are
supplied by `crypto/rand.Read` in the source, modelled as the byte-list
argument.) -/
theorem c8_key_derivation :
    ∀ (randomBytes : List Nat) (namedAspectRatio extension videoID : String),
      randomBytes.length = 32 →
      videoKey namedAspectRatio randomBytes extension =
        namedAspectRatio ++ "/" ++ hexEncodeToString randomBytes ++ "." ++ extension ∧
      (hexEncodeToString randomBytes).length = 64 ∧
      (∀ c ∈ (hexEncodeToString randomBytes).data, c ∈ hexTable) ∧
      thumbnailAssetName videoID extension = videoID ++ "." ++ extension := by
  intro randomBytes namedAspectRatio extension videoID h
  refine ⟨rfl, ?_, hexEncodeToString_mem randomBytes, rfl⟩
  rw [hexEncodeToString_length, h]

/-- Witness for C8 at a concrete 32-byte input. -/
theorem c8_key_derivation_witness :
    videoKey "landscape" (List.replicate 32 0) "mp4" =
      "landscape" ++ "/" ++ hexEncodeToString (List.replicate 32 0) ++ "." ++ "mp4" ∧
    (hexEncodeToString (List.replicate 32 0)).length = 64 ∧
    thumbnailAssetName "vid-1" "mp4" = "vid-1" ++ "." ++ "mp4" :=
  ⟨(c8_key_derivation (List.replicate 32 0) "landscape" "mp4" "vid-1" (by decide)).1,
   (c8_key_derivation (List.replicate 32 0) "landscape" "mp4" "vid-1" (by decide)).2.1,
   (c8_key_derivation (List.replicate 32 0) "landscape" "mp4" "vid-1" (by decide)).2.2.2⟩

/-- Claim C10: when the stored video reference is nil or empty, the signed-URL
conversion returns the completely zero-valued record with no error —
discarding identity, thumbnail reference and metadata, not returning the
original record — and the zero-valued record is likewise returned on every
error path. -/
theorem c10_conversion_zeroes_record :
    (∀ (cfg : APIConfig) (presign : String → String → Nat → Except String String)
       (video : Video), video.videoURL = none ∨ video.videoURL = some "" →
       dbVideoToSignedVideo cfg presign video = (zeroVideo, none)) ∧
    (∀ (cfg : APIConfig) (presign : String → String → Nat → Except String String)
       (video v1 : Video) (e : String),
       dbVideoToSignedVideo cfg presign video = (v1, some e) → v1 = zeroVideo) ∧
    (∀ (cfg : APIConfig) (presign : String → String → Nat → Except String String)
       (video : Video), video.videoURL = none ∨ video.videoURL = some "" →
       video ≠ zeroVideo → dbVideoToSignedVideo cfg presign video ≠ (video, none)) := by
  refine ⟨?_, ?_, ?_⟩
  · intro cfg presign video h
    rcases h with h | h <;> simp [dbVideoToSignedVideo, h]
  · intro cfg presign video v1 e h
    unfold dbVideoToSignedVideo at h
    split at h
    · simp at h
    · split at h
      · simp at h
      · split at h
        · split at h
          · split at h
            · simp at h
            · injection h with h1 h2
              exact h1.symm
          · injection h with h1 h2
            exact h1.symm
        · injection h with h1 h2
          exact h1.symm
  · intro cfg presign video h hne
    have h0 : dbVideoToSignedVideo cfg presign video = (zeroVideo, none) := by
      rcases h with h | h <;> simp [dbVideoToSignedVideo, h]
    rw [h0]
    intro heq
    injection heq with h1 h2
    exact hne h1.symm

/-- Witness for C10 at concrete records: `vidC` has no stored reference and is
not the zero record; a malformed stored reference errors back to the zero
record. -/
theorem c10_conversion_zeroes_record_witness :
    dbVideoToSignedVideo cfgC presignDemo vidC = (zeroVideo, none) ∧
    dbVideoToSignedVideo cfgC presignDemo vidC ≠ (vidC, none) ∧
    zeroVideo = zeroVideo :=
  ⟨c10_conversion_zeroes_record.1 cfgC presignDemo vidC (Or.inl rfl),
   c10_conversion_zeroes_record.2.2 cfgC presignDemo vidC (Or.inl rfl) (by decide),
   c10_conversion_zeroes_record.2.1 cfgC presignDemo
     { vidC with videoURL := some "nocomma" } zeroVideo
     ("video URL \"" ++ "nocomma" ++ "\" is not in expected bucket,key format")
     (by decide)⟩

/-- Counterexample to claim C3 as stated: with configured bucket `tube` and
stored reference `youtube,key1.mp4`, the bucket component `youtube` is not
equal to the configured bucket, yet the read path does not fail — it emits a
signed URL, because the source checks `strings.Contains(bucket,
cfg.s3Bucket)`, a substring test, not equality. -/
theorem c3_substring_counterexample :
    dbVideoToSignedVideo { cfgC with s3Bucket := "tube" } presignDemo
        { vidC with videoURL := some "youtube,key1.mp4" } =
      ({ vidC with videoURL := some "signed:tube:key1.mp4" }, none) ∧
    goSplit "youtube,key1.mp4" ',' = ["youtube", "key1.mp4"] ∧
    ("youtube" : String) ≠ "tube" := by decide

/-- Claim C3 amended: the read path fails with the reference-mismatch error
exactly when the bucket component does not CONTAIN the configured bucket as a
substring; an error-free result with a nonempty stored reference implies the
bucket component contains the configured bucket.  (The presign call itself is
always made against the configured bucket.) -/
theorem c3_bucket_substring_gate :
    (∀ (cfg : APIConfig) (presign : String → String → Nat → Except String String)
       (video : Video) (url b k : String) (rest : List String),
       video.videoURL = some url → url ≠ "" → goSplit url ',' = b :: k :: rest →
       goContains b cfg.s3Bucket = false →
       dbVideoToSignedVideo cfg presign video =
         (zeroVideo, some ("video URL bucket \"" ++ b ++
           "\" does not match configured S3 bucket \"" ++ cfg.s3Bucket ++ "\""))) ∧
    (∀ (cfg : APIConfig) (presign : String → String → Nat → Except String String)
       (video v1 : Video),
       dbVideoToSignedVideo cfg presign video = (v1, none) →
       video.videoURL ≠ none → video.videoURL ≠ some "" →
       ∃ (url b k : String) (rest : List String),
         video.videoURL = some url ∧ goSplit url ',' = b :: k :: rest ∧
         goContains b cfg.s3Bucket = true) := by
  constructor
  · intro cfg presign video url b k rest hurl hne hsplit hcon
    simp only [dbVideoToSignedVideo, hurl]
    rw [if_neg hne, hsplit]
    simp [hcon]
  · intro cfg presign video v1 h hn hne
    cases hv : video.videoURL with
    | none => exact absurd hv hn
    | some url =>
      have hu : url ≠ "" := by
        intro h0
        exact hne (h0 ▸ hv)
      simp only [dbVideoToSignedVideo, hv] at h
      rw [if_neg hu] at h
      cases hsplit : goSplit url ',' with
      | nil => rw [hsplit] at h; simp at h
      | cons b rest1 =>
        cases rest1 with
        | nil => rw [hsplit] at h; simp at h
        | cons k rest =>
          rw [hsplit] at h
          by_cases hcon : goContains b cfg.s3Bucket = true
          · exact ⟨url, b, k, rest, rfl, hsplit, hcon⟩
          · simp only [Bool.not_eq_true] at hcon
            simp [hcon] at h

/-- Witness for the amended C3 at concrete references: a foreign bucket is
rejected; an error-free conversion implies substring containment. -/
theorem c3_bucket_substring_gate_witness :
    dbVideoToSignedVideo cfgC presignDemo
        { vidC with videoURL := some "elsewhere,k.mp4" } =
      (zeroVideo, some ("video URL bucket \"" ++ "elsewhere" ++
        "\" does not match configured S3 bucket \"" ++ cfgC.s3Bucket ++ "\"")) ∧
    (∃ (url b k : String) (rest : List String),
      ({ vidC with videoURL := some "mybucket,k.mp4" } : Video).videoURL = some url ∧
      goSplit url ',' = b :: k :: rest ∧ goContains b cfgC.s3Bucket = true) :=
  ⟨c3_bucket_substring_gate.1 cfgC presignDemo
     { vidC with videoURL := some "elsewhere,k.mp4" } "elsewhere,k.mp4"
     "elsewhere" "k.mp4" [] rfl (by decide) (by decide) (by decide),
   c3_bucket_substring_gate.2 cfgC presignDemo
     { vidC with videoURL := some "mybucket,k.mp4" }
     { vidC with videoURL := some "signed:mybucket:k.mp4" }
     (by decide) (by decide) (by decide)⟩

/-- Counterexample to claim C6 as stated: the declared type `VIDEO/mp4` has
kind `VIDEO`, which differs from the expected kind `video`, so per the claim
classification must fail with a wrong-media-kind error — but the video-side
classifier MIME-parses (and lowercases) the string first and accepts it. -/
theorem c6_uppercase_counterexample :
    getVideoExtension "VIDEO/mp4" = .ok "mp4" ∧ ("VIDEO" : String) ≠ "video" := by
  decide

/-- Claim C6 amended: the thumbnail handler's raw classifier behaves exactly
as claimed on the declared string; the video-side classifier and the updated
image classifier first parse the declared type as a MIME media type
(trimming, ASCII-lowercasing, discarding `;`-parameters), propagate its
errors, and apply the exactly-one-`/` and kind checks to the parsed media
type. -/
theorem c6_classification_behaviour :
    (∀ (s e : String), parseMediaType s = .error e →
      getVideoExtension s = .error e ∧ getImageExtensionParsed s = .error e) ∧
    (∀ (s mt kind ext : String), parseMediaType s = .ok mt →
      goSplit mt '/' = [kind, ext] →
      (getVideoExtension s = if kind = "video" then .ok ext
        else .error "not an video") ∧
      (getImageExtensionParsed s = if kind = "image" then .ok ext
        else .error "not an image")) ∧
    (∀ (s mt : String), parseMediaType s = .ok mt → (goSplit mt '/').length ≠ 2 →
      getVideoExtension s = .error "not a valid video mime-type" ∧
      getImageExtensionParsed s = .error "not a valid image mime-type") ∧
    (∀ (s kind ext : String), goSplit s '/' = [kind, ext] →
      getImageExtension s = if kind = "image" then .ok ext
        else .error "not an image") ∧
    (∀ s : String, (goSplit s '/').length ≠ 2 →
      getImageExtension s = .error "not a valid image mime-type") := by
  refine ⟨?_, ?_, ?_, ?_, ?_⟩
  · intro s e h
    constructor <;> simp [getVideoExtension, getImageExtensionParsed, h]
  · intro s mt kind ext hp hsplit
    constructor
    · simp only [getVideoExtension, hp]
      rw [hsplit]
    · simp only [getImageExtensionParsed, hp]
      rw [hsplit]
  · intro s mt hp hlen
    constructor
    · simp only [getVideoExtension, hp]
      rcases hsplit : goSplit mt '/' with _ | ⟨a, _ | ⟨b, _ | ⟨c, l⟩⟩⟩
      · rfl
      · rfl
      · rw [hsplit] at hlen; simp at hlen
      · rfl
    · simp only [getImageExtensionParsed, hp]
      rcases hsplit : goSplit mt '/' with _ | ⟨a, _ | ⟨b, _ | ⟨c, l⟩⟩⟩
      · rfl
      · rfl
      · rw [hsplit] at hlen; simp at hlen
      · rfl
  · intro s kind ext hsplit
    simp only [getImageExtension]
    rw [hsplit]
  · intro s hlen
    simp only [getImageExtension]
    rcases hsplit : goSplit s '/' with _ | ⟨a, _ | ⟨b, _ | ⟨c, l⟩⟩⟩
    · rfl
    · rfl
    · rw [hsplit] at hlen; simp at hlen
    · rfl

/-- Witness for the amended C6 at concrete declared types. -/
theorem c6_classification_behaviour_witness :
    (getVideoExtension "VIDEO/MP4" =
      if ("video" : String) = "video" then .ok "mp4" else .error "not an video") ∧
    (getImageExtension "image/png" =
      if ("image" : String) = "image" then .ok "png" else .error "not an image") ∧
    getVideoExtension "" = .error "mime: no media type" :=
  ⟨(c6_classification_behaviour.2.1 "VIDEO/MP4" "video/mp4" "video" "mp4"
      (by decide) (by decide)).1,
   c6_classification_behaviour.2.2.2.1 "image/png" "image" "png" (by decide),
   (c6_classification_behaviour.1 "" "mime: no media type" (by decide)).1⟩

/-- Claim C9: an authenticated request whose acting user does not own the
target record is rejected with the source's Forbidden-class response (status
401, message `Unauthorized`) before any disk write, object-store upload or
record update, on both upload handlers. -/
theorem c9_non_owner_rejected :
    (∀ (cfg : APIConfig) (r : VideoReq) (vID tok juid uid : String) (video : Video),
       r.videoID = some vID → r.bearerToken = some tok → r.jwtUserID = some juid →
       r.dbVideo = some video → r.dbUserID = some uid → video.userID ≠ uid →
       handlerUploadVideo cfg r =
         { response := ⟨401, .err "Unauthorized"⟩, files := [], s3Puts := [],
           dbUpdates := [], diskWrites := [] }) ∧
    (∀ (cfg : APIConfig) (t : ThumbReq) (vID tok juid uid : String) (video : Video),
       t.videoID = some vID → t.bearerToken = some tok → t.jwtUserID = some juid →
       t.dbVideo = some video → t.dbUserID = some uid → video.userID ≠ uid →
       handlerUploadThumbnail cfg t =
         { response := ⟨401, .err "Unauthorized"⟩, files := [], s3Puts := [],
           dbUpdates := [], diskWrites := [] }) := by
  constructor
  · intro cfg r vID tok juid uid video hv hb hj hdv hdu hne
    simp only [handlerUploadVideo, hv, hb, hj, hdv, hdu]
    rw [if_pos hne]
    rfl
  · intro cfg t vID tok juid uid video hv hb hj hdv hdu hne
    simp only [handlerUploadThumbnail, hv, hb, hj, hdv, hdu]
    rw [if_pos hne]
    rfl

/-- Witness for C9: user-2 uploading to user-1's record is rejected with no
effects, on both handlers. -/
theorem c9_non_owner_rejected_witness :
    handlerUploadVideo cfgC { reqC with dbUserID := some "user-2" } =
      { response := ⟨401, .err "Unauthorized"⟩, files := [], s3Puts := [],
        dbUpdates := [], diskWrites := [] } ∧
    handlerUploadThumbnail cfgC { thumbC with dbUserID := some "user-2" } =
      { response := ⟨401, .err "Unauthorized"⟩, files := [], s3Puts := [],
        dbUpdates := [], diskWrites := [] } :=
  ⟨c9_non_owner_rejected.1 cfgC { reqC with dbUserID := some "user-2" }
     "11111111-1111-1111-1111-111111111111" "tok" "user-1" "user-2" vidC
     rfl rfl rfl rfl rfl (by decide),
   c9_non_owner_rejected.2 cfgC { thumbC with dbUserID := some "user-2" }
     "11111111-1111-1111-1111-111111111111" "tok" "user-1" "user-2" vidC
     rfl rfl rfl rfl rfl (by decide)⟩

/-- Claim C1 evaluated on the code: a fully successful 16:9 `video/mp4`
upload (configured bucket `mybucket`, region `us-east-1`) returns 200 but
persists the RAW URL `https://mybucket.s3.us-east-1.amazonaws.com/...` in the
record's video reference field — a comma-free string, not the
`bucket,key` pair the claim (and the read side's own comment) require; the
read side consequently rejects exactly the reference the write side stored. -/
theorem c1_reference_is_raw_url :
    (handlerUploadVideo cfgC reqC).response.status = 200 ∧
    (handlerUploadVideo cfgC reqC).dbUpdates =
      [{ vidC with updatedAt := 99, videoURL := some storedC }] ∧
    goSplit storedC ',' = [storedC] ∧
    storedC ≠ "mybucket," ++ "landscape/" ++
      hexEncodeToString (List.replicate 32 171) ++ ".mp4" ∧
    (dbVideoToSignedVideo cfgC presignDemo
        { vidC with updatedAt := 99, videoURL := some storedC }).2 =
      some ("video URL \"" ++ storedC ++ "\" is not in expected bucket,key format") := by
  decide

/-- Claim C2 evaluated on the code: for the stored reference
`mybucket,landscape/a,b.mp4`, whose key contains a comma, the read-side
parser splits on EVERY comma and takes element 1, so the signed URL is minted
for the truncated key `landscape/a` rather than the full key
`landscape/a,b.mp4` — contrary to the claim and to the source's own
`Split on first comma only` comment. -/
theorem c2_split_truncates_key :
    dbVideoToSignedVideo cfgC presignDemo
        { vidC with videoURL := some "mybucket,landscape/a,b.mp4" } =
      ({ vidC with videoURL := some "signed:mybucket:landscape/a" }, none) ∧
    goSplit "mybucket,landscape/a,b.mp4" ',' =
      ["mybucket", "landscape/a", "b.mp4"] ∧
    ("landscape/a" : String) ≠ "landscape/a,b.mp4" := by decide

/-- Claim C4 evaluated on the code: on the exit path where `ffmpeg` succeeded
but opening the fast-start output fails, the handler returns with the
fast-start file still on disk — its `os.Remove` is deferred only after a
successful `os.Open`.  (The staged temporary file is removed, as its `defer`
was registered right after `os.CreateTemp`.) -/
theorem c4_faststart_file_survives :
    handlerUploadVideo cfgC { reqC with openFastOk := false } =
      { response := ⟨500, .err "Error opening video file with fast start version"⟩,
        files := [fastStartOutputPath "/tmp/vid.mp4rand"], s3Puts := [],
        dbUpdates := [],
        diskWrites := [fastStartOutputPath "/tmp/vid.mp4rand", "/tmp/vid.mp4rand",
          "/tmp/vid.mp4rand"] } ∧
    fastStartOutputPath "/tmp/vid.mp4rand" = "/tmp/vid.mp4rand-faststart.mp4" := by
  decide

/-- Claim C5 evaluated on the code: a video request body one byte over the
10 GiB constant is accepted end to end with status 200, because the capped
reader `http.MaxBytesReader` returns is discarded (reading through it would
have failed); likewise a thumbnail body over the 10 MiB constant is accepted,
since `ParseMultipartForm`'s argument is a memory threshold, not a cap. -/
theorem c5_no_cap_enforced :
    (handlerUploadVideo cfgC
        { reqC with bodySize := maxMemoryVideo + 1 }).response.status = 200 ∧
    maxBytesReader (maxMemoryVideo + 1) maxMemoryVideo =
      .error "http: request body too large" ∧
    (handlerUploadThumbnail cfgC
        { thumbC with bodySize := maxMemoryThumb + 1 }).response.status = 200 := by
  decide

end TubelyVerify
